import Mathlib

/-!
Shallow embedding of the `solid-webgpu` WebGPU renderer core
(`WebGPURenderer`, `PBRMaterial`, the `Camera` component) and proofs about
the behaviour its specification describes: render-list ordering, the
weak resource cache, uniform-buffer refresh, draw-range clamping,
pipeline caching, the per-mesh base uniform block, vertex-input shader
splicing and swap-chain resizing.

Numeric values that the JavaScript source handles as IEEE doubles are
modelled as rationals (`ℚ`); object identities (JavaScript reference
equality, `WeakMap` keys) are modelled as natural-number ids handed out
by a monotone counter, so that two distinct allocations are provably
distinct objects.
-/

namespace SolidWebgpu

/-! ## Draw-call issue logic (`WebGPURenderer.render`, lines 445–457)

`render` issues, per visible mesh, an indexed draw when the geometry has
an index buffer, else a non-indexed draw sized from the first vertex
buffer, else a fallback draw of 3 vertices.  `buffer` fields are typed
arrays: `.length` is the element count, `.byteLength` is
`length * BYTES_PER_ELEMENT`. -/

/-- A typed-array-backed index buffer: `length` elements of
`bytesPerElement` bytes each. -/
structure IndexBufferD where
  length : Nat
  bytesPerElement : Nat
deriving DecidableEq

/-- A typed-array-backed vertex buffer with its pipeline layout stride
(`layout.arrayStride`, in bytes, as WebGPU requires). -/
structure VertexBufferD where
  length : Nat
  bytesPerElement : Nat
  arrayStride : Nat
deriving DecidableEq

/-- The byte length of the vertex buffer's typed array. -/
def VertexBufferD.byteLength (v : VertexBufferD) : Nat :=
  v.length * v.bytesPerElement

/-- The draw range of a geometry; `start` is optional in the source
(`drawRange.start ?? 0`). -/
structure DrawRangeD where
  start : Option Nat
  count : Nat
deriving DecidableEq

/-- The slice of a geometry descriptor the draw-call logic reads. -/
structure GeometryDraw where
  indexBuffer : Option IndexBufferD
  vertexBuffers : List VertexBufferD
  drawRange : DrawRangeD
  instanceCount : Nat
deriving DecidableEq

/-- One issued draw call.  The non-indexed vertex count is rational
because the source computes it by JavaScript float division
(`position.buffer.length / position.layout.arrayStride`). -/
inductive DrawCmd where
  | drawIndexed (count : Nat) (instanceCount : Nat) (firstIndex : Nat)
  | draw (count : ℚ) (instanceCount : Nat) (firstVertex : Nat)
deriving DecidableEq

/-- The draw call `render` issues for one mesh (source lines 449–457):
indexed with `count = min(drawRange.count, indexBuffer.buffer.length)`;
else non-indexed with
`count = min(drawRange.count, position.buffer.length / position.layout.arrayStride)`;
else a fallback draw of 3 vertices. -/
def issueDraw (g : GeometryDraw) : DrawCmd :=
  match g.indexBuffer with
  | some ib => .drawIndexed (min g.drawRange.count ib.length) g.instanceCount
      (g.drawRange.start.getD 0)
  | none =>
    match g.vertexBuffers with
    | p :: _ => .draw (min (g.drawRange.count : ℚ) ((p.length : ℚ) / (p.arrayStride : ℚ)))
        g.instanceCount (g.drawRange.start.getD 0)
    | [] => .draw 3 g.instanceCount 0

/-- The non-indexed vertex count the specification prescribes:
`min(declared draw-range count, vertex-buffer byte length / per-vertex stride)`. -/
def specVertexCount (g : GeometryDraw) (p : VertexBufferD) : ℚ :=
  min (g.drawRange.count : ℚ) ((p.byteLength : ℚ) / (p.arrayStride : ℚ))

/-- C4: for every geometry with an index buffer of element length `L` and
declared draw-range count `C`, the issued draw is indexed with count
`min C L` (hence `= L` whenever `C > L`), instance count equal to the
node's instance count, and first index equal to the draw-range start
(defaulting to 0). -/
theorem c4_drawIndexed_count_clamped (g : GeometryDraw) (ib : IndexBufferD)
    (h : g.indexBuffer = some ib) :
    issueDraw g = .drawIndexed (min g.drawRange.count ib.length) g.instanceCount
        (g.drawRange.start.getD 0)
    ∧ (ib.length < g.drawRange.count →
        issueDraw g = .drawIndexed ib.length g.instanceCount (g.drawRange.start.getD 0)) := by
  constructor
  · simp [issueDraw, h]
  · intro hlt
    simp [issueDraw, h, Nat.min_eq_right (Nat.le_of_lt hlt)]

/-- Witness for C4 at a concrete geometry: index buffer of 3 `uint16`
elements, draw range `(start = none, count = 5)`, 2 instances; the issued
draw has count 3. -/
theorem c4_drawIndexed_count_clamped_witness :
    issueDraw ⟨some ⟨3, 2⟩, [], ⟨none, 5⟩, 2⟩ = .drawIndexed 3 2 0
    ∧ (3 < 5 → issueDraw ⟨some ⟨3, 2⟩, [], ⟨none, 5⟩, 2⟩ = .drawIndexed 3 2 0) := by
  have h := c4_drawIndexed_count_clamped ⟨some ⟨3, 2⟩, [], ⟨none, 5⟩, 2⟩ ⟨3, 2⟩ rfl
  exact ⟨by simpa using h.1, fun hc => by simpa using h.2 hc⟩

/-- C5 (code bug): for a Float32Array position buffer of 12 elements
(48 bytes) with `arrayStride = 12` bytes and draw-range count 100, the
code issues a non-indexed draw of `min(100, 12 / 12) = 1` vertex, while
the specified count `min(100, byteLength / stride) = min(100, 48 / 12)`
is 4: the source divides the typed array's element count, not its byte
length, by the byte stride. -/
theorem c5_draw_count_element_length_bug :
    issueDraw ⟨none, [⟨12, 4, 12⟩], ⟨none, 100⟩, 1⟩ = .draw 1 1 0
    ∧ specVertexCount ⟨none, [⟨12, 4, 12⟩], ⟨none, 100⟩, 1⟩ ⟨12, 4, 12⟩ = 4
    ∧ (1 : ℚ) ≠ 4 := by
  refine ⟨?_, ?_, by norm_num⟩
  · simp only [issueDraw]
    norm_num
  · simp only [specVertexCount, VertexBufferD.byteLength]
    norm_num

/-! ## The weak resource cache (`WebGPURenderer._cached` → `weakCached`)

`_cached` (source lines 62–73) delegates to `weakCached` from `./utils`,
a file the repository sources do not include; only its call sites and the
specification's §4.1 contract describe it.  Keys are object identities
(`WeakMap` keys), modelled as natural-number ids; created GPU objects
carry a fresh id from a monotone counter, so two allocations are provably
distinct, which models JavaScript reference inequality. -/

/-- A cache namespace: a partial map from descriptor identity to the
cached object, plus the fresh-id counter of the GPU-object allocator. -/
structure CacheState (α : Type) where
  store : Nat → Option α
  nextId : Nat

/-- Every cached object was allocated before the current counter value:
the invariant that makes freshly created objects distinct from every
stored one. -/
def CacheState.wf {α : Type} (idOf : α → Nat) (s : CacheState α) : Prop :=
  ∀ k o, s.store k = some o → idOf o < s.nextId

/-- Modelled from the spec: `weakCached` (imported from `./utils`, which
is not among the sources) per §4.1 — on first lookup invoke `create_fn`
once, store and return the result; on later lookups, if
`is_stale_fn(current)` is true invoke `create_fn` again, replace the
stored object and return the new one, else return the stored object
unchanged.  `create` receives the fresh id; the third component counts
how many times `create` ran during this lookup. -/
def weakCached {α : Type} (create : Nat → α) (s : CacheState α) (k : Nat)
    (stale : α → Bool) : α × CacheState α × Nat :=
  match s.store k with
  | none =>
      let o := create s.nextId
      (o, ⟨fun k' => if k' = k then some o else s.store k', s.nextId + 1⟩, 1)
  | some o =>
      if stale o then
        let o' := create s.nextId
        (o', ⟨fun k' => if k' = k then some o' else s.store k', s.nextId + 1⟩, 1)
      else (o, s, 0)

/-- After any lookup, the key holds exactly the returned object. -/
theorem weakCached_store_self {α : Type} (create : Nat → α) (s : CacheState α)
    (k : Nat) (stale : α → Bool) :
    (weakCached create s k stale).2.1.store k = some (weakCached create s k stale).1 := by
  unfold weakCached
  cases h : s.store k with
  | none => simp
  | some o =>
    by_cases hs : stale o
    · simp [hs]
    · simp [hs, h]

/-- On a hit whose staleness predicate rejects, the lookup returns the
stored object, leaves the state unchanged and runs no creation. -/
theorem weakCached_hit {α : Type} (create : Nat → α) (s : CacheState α) (k : Nat)
    (stale : α → Bool) (o : α) (h : s.store k = some o) (hs : stale o = false) :
    weakCached create s k stale = (o, s, 0) := by
  unfold weakCached
  simp [h, hs]

/-- On a miss, the lookup creates an object with the fresh id, stores it
under the key and bumps the counter. -/
theorem weakCached_miss {α : Type} (create : Nat → α) (s : CacheState α) (k : Nat)
    (stale : α → Bool) (h : s.store k = none) :
    weakCached create s k stale
      = (create s.nextId,
         ⟨fun k' => if k' = k then some (create s.nextId) else s.store k', s.nextId + 1⟩, 1) := by
  unfold weakCached
  simp [h]

/-- A lookup never touches other keys' entries. -/
theorem weakCached_store_other {α : Type} (create : Nat → α) (s : CacheState α)
    (k : Nat) (stale : α → Bool) (k' : Nat) (hk : k' ≠ k) :
    (weakCached create s k stale).2.1.store k' = s.store k' := by
  unfold weakCached
  cases h : s.store k with
  | none => simp [hk]
  | some o =>
    by_cases hs : stale o
    · simp [hs, hk]
    · simp [hs]

/-- A lookup preserves the freshness invariant. -/
theorem weakCached_wf {α : Type} (idOf : α → Nat) (create : Nat → α)
    (hc : ∀ n, idOf (create n) = n) (s : CacheState α) (k : Nat) (stale : α → Bool)
    (hwf : s.wf idOf) : (weakCached create s k stale).2.1.wf idOf := by
  unfold CacheState.wf
  intro k' o' ho'
  unfold weakCached at ho' ⊢
  cases h : s.store k with
  | none =>
    simp only [h] at ho' ⊢
    by_cases hk : k' = k
    · simp [hk] at ho'
      rw [← ho', hc]
      omega
    · simp only [if_neg hk] at ho'
      exact Nat.lt_succ_of_lt (hwf k' o' ho')
  | some o =>
    by_cases hs : stale o
    · simp only [h, hs, if_pos] at ho' ⊢
      by_cases hk : k' = k
      · simp [hk] at ho'
        rw [← ho', hc]
        omega
      · simp only [if_neg hk] at ho'
        exact Nat.lt_succ_of_lt (hwf k' o' ho')
    · simp only [h, hs] at ho' ⊢
      simp only [Bool.false_eq_true, if_neg] at ho' ⊢
      exact hwf k' o' ho'

/-- C2: for any cache state satisfying the freshness invariant and any
key, two consecutive lookups behave per the contract: if the second
lookup's staleness predicate rejects the first result, the second lookup
returns the identical object, runs no creation and leaves the state
unchanged; if it accepts (the descriptor was marked stale in between),
the second lookup runs the creation function exactly once and returns a
different object that replaces the stored one. -/
theorem c2_weakCached_contract {α : Type} (idOf : α → Nat) (create : Nat → α)
    (hc : ∀ n, idOf (create n) = n) (s : CacheState α) (k : Nat)
    (st₁ st₂ : α → Bool) (hwf : s.wf idOf) :
    (st₂ (weakCached create s k st₁).1 = false →
      (weakCached create (weakCached create s k st₁).2.1 k st₂).1
          = (weakCached create s k st₁).1
      ∧ (weakCached create (weakCached create s k st₁).2.1 k st₂).2.2 = 0
      ∧ (weakCached create (weakCached create s k st₁).2.1 k st₂).2.1
          = (weakCached create s k st₁).2.1)
    ∧ (st₂ (weakCached create s k st₁).1 = true →
      (weakCached create (weakCached create s k st₁).2.1 k st₂).1
          ≠ (weakCached create s k st₁).1
      ∧ (weakCached create (weakCached create s k st₁).2.1 k st₂).2.2 = 1
      ∧ (weakCached create (weakCached create s k st₁).2.1 k st₂).2.1.store k
          = some (weakCached create (weakCached create s k st₁).2.1 k st₂).1) := by
  set r₁ := weakCached create s k st₁ with hr₁
  have hstore : r₁.2.1.store k = some r₁.1 := weakCached_store_self create s k st₁
  have hwf₁ : r₁.2.1.wf idOf := weakCached_wf idOf create hc s k st₁ hwf
  constructor
  · intro hside
    unfold weakCached
    simp [hstore, hside]
  · intro hside
    have hlt : idOf r₁.1 < r₁.2.1.nextId := hwf₁ k r₁.1 hstore
    refine ⟨?_, ?_, ?_⟩
    · unfold weakCached
      simp only [hstore, hside, if_pos]
      intro heq
      have h1 := hc r₁.2.1.nextId
      rw [heq] at h1
      omega
    · unfold weakCached
      simp [hstore, hside]
    · exact weakCached_store_self create r₁.2.1 k st₂

/-- Witness for C2: objects are bare ids (`idOf = id`, `create = id`),
starting from the empty cache at key 7; the not-stale side (second
predicate constantly false) and the marked-stale side (second predicate
constantly true) of the contract both hold there. -/
theorem c2_weakCached_contract_witness :
    ((weakCached id (weakCached id ⟨fun _ => none, 0⟩ 7 (fun _ => false)).2.1 7
          (fun _ => false)).1 = (weakCached id ⟨fun _ => none, 0⟩ 7 (fun _ => false)).1
      ∧ (weakCached id (weakCached id ⟨fun _ => none, 0⟩ 7 (fun _ => false)).2.1 7
          (fun _ => false)).2.2 = 0
      ∧ (weakCached id (weakCached id ⟨fun _ => none, 0⟩ 7 (fun _ => false)).2.1 7
          (fun _ => false)).2.1 = (weakCached id ⟨fun _ => none, 0⟩ 7 (fun _ => false)).2.1)
    ∧ ((weakCached id (weakCached id ⟨fun _ => none, 0⟩ 7 (fun _ => false)).2.1 7
          (fun _ => true)).1 ≠ (weakCached id ⟨fun _ => none, 0⟩ 7 (fun _ => false)).1
      ∧ (weakCached id (weakCached id ⟨fun _ => none, 0⟩ 7 (fun _ => false)).2.1 7
          (fun _ => true)).2.2 = 1
      ∧ (weakCached id (weakCached id ⟨fun _ => none, 0⟩ 7 (fun _ => false)).2.1 7
          (fun _ => true)).2.1.store 7
          = some (weakCached id (weakCached id ⟨fun _ => none, 0⟩ 7 (fun _ => false)).2.1 7
              (fun _ => true)).1) :=
  ⟨(c2_weakCached_contract id id (fun _ => rfl) ⟨fun _ => none, 0⟩ 7
      (fun _ => false) (fun _ => false) (fun _ _ h => by simp at h)).1 rfl,
   (c2_weakCached_contract id id (fun _ => rfl) ⟨fun _ => none, 0⟩ 7
      (fun _ => false) (fun _ => true) (fun _ _ h => by simp at h)).2 rfl⟩

/-! ## Pipeline caching (`WebGPURenderer._updatePipeline`, lines 259–325)

The pipeline configuration fingerprint is `JSON.stringify(pipelineOption)`;
stringification of the option record is injective on the modelled fields,
so the fingerprint is modelled as the option record itself, compared by
(deep) structural equality.  The pipeline is cached by `_cached(mesh, …)`
— keyed by the *mesh object's identity* — with staleness
`o.label !== pipelineCacheKey`. -/

/-- One vertex attribute of a vertex-buffer layout. -/
structure VertexAttributeL where
  format : String
  offset : Nat
  shaderLocation : Nat
deriving DecidableEq

/-- A `GPUVertexBufferLayout` as it enters the fingerprint. -/
structure VertexBufferLayout where
  arrayStride : Nat
  attributes : List VertexAttributeL
deriving DecidableEq

/-- The material fields `_updatePipeline` reads. -/
structure MaterialDesc where
  transparent : Bool
  cullMode : String
  depthWrite : Bool
  depthTest : Bool
  blending : Option String
deriving DecidableEq

/-- The geometry fields `_updatePipeline` reads. -/
structure GeometryDesc where
  topology : String
  vertexBufferLayouts : List VertexBufferLayout
deriving DecidableEq

/-- A mesh as the pipeline cache sees it: an object identity plus its
material and geometry descriptors. -/
structure MeshDesc where
  id : Nat
  material : MaterialDesc
  geometry : GeometryDesc
deriving DecidableEq

/-- The pipeline configuration fingerprint (source lines 259–269),
including the derived depth-compare function
(`'less'` when depth test is enabled, else `'always'`). -/
structure PipelineOption where
  transparent : Bool
  cullMode : String
  topology : String
  depthWriteEnabled : Bool
  depthCompare : String
  vertexBufferLayouts : List VertexBufferLayout
  blending : Option String
  colorAttachments : Nat
  samples : Nat
deriving DecidableEq

/-- Builds the fingerprint of a mesh at the renderer's current sample
count, exactly as `_updatePipeline` does. -/
def mkPipelineOption (samples : Nat) (m : MeshDesc) : PipelineOption :=
  { transparent := m.material.transparent
    cullMode := m.material.cullMode
    topology := m.geometry.topology
    depthWriteEnabled := m.material.depthWrite
    depthCompare := if m.material.depthTest then "less" else "always"
    vertexBufferLayouts := m.geometry.vertexBufferLayouts
    blending := m.material.blending
    colorAttachments := 1
    samples := samples }

/-- A cached GPU render pipeline: a fresh object identity plus the
fingerprint baked into its `label`. -/
structure PipelineObj where
  id : Nat
  label : PipelineOption
deriving DecidableEq

/-- The pipeline lookup of `_updatePipeline`: cached under the mesh
object's identity, created with the current fingerprint as label, stale
when the cached label no longer equals the current fingerprint. -/
def updatePipeline (samples : Nat) (s : CacheState PipelineObj) (m : MeshDesc) :
    PipelineObj × CacheState PipelineObj × Nat :=
  weakCached (fun n => ⟨n, mkPipelineOption samples m⟩) s m.id
    (fun o => decide (o.label ≠ mkPipelineOption samples m))

/-- C6 counterexample: two distinct meshes (ids 0 and 1) with equal
material and geometry, hence equal fingerprints, rendered from the empty
cache in one frame, receive two different pipeline objects — the cache is
keyed by mesh identity, not by fingerprint, so equal fingerprints do not
make the meshes share a pipeline. -/
theorem c6_pipeline_not_shared_counterexample :
    mkPipelineOption 4 ⟨0, ⟨false, "back", true, true, none⟩, ⟨"triangle-list", []⟩⟩
      = mkPipelineOption 4 ⟨1, ⟨false, "back", true, true, none⟩, ⟨"triangle-list", []⟩⟩
    ∧ (updatePipeline 4
        (updatePipeline 4 ⟨fun _ => none, 0⟩
          ⟨0, ⟨false, "back", true, true, none⟩, ⟨"triangle-list", []⟩⟩).2.1
        ⟨1, ⟨false, "back", true, true, none⟩, ⟨"triangle-list", []⟩⟩).1
      ≠ (updatePipeline 4 ⟨fun _ => none, 0⟩
          ⟨0, ⟨false, "back", true, true, none⟩, ⟨"triangle-list", []⟩⟩).1 := by
  constructor
  · rfl
  · simp only [updatePipeline, weakCached]
    decide

/-- C6 as amended: the pipeline cache is keyed by mesh object identity.
For every well-formed cache state: (a) updating the same mesh twice at
the same sample count returns the identical pipeline object both times
and runs no second creation — a mesh's pipeline is reused while its
fingerprint is unchanged; (b) two meshes with different identities that
are both absent from the cache receive different pipeline objects even
when their fingerprints are equal. -/
theorem c6_pipeline_cache_keyed_by_mesh (samples : Nat) (s : CacheState PipelineObj)
    (hwf : s.wf PipelineObj.id) (m₁ m₂ : MeshDesc) :
    ((updatePipeline samples (updatePipeline samples s m₁).2.1 m₁).1
        = (updatePipeline samples s m₁).1
      ∧ (updatePipeline samples (updatePipeline samples s m₁).2.1 m₁).2.2 = 0)
    ∧ (m₁.id ≠ m₂.id → s.store m₁.id = none → s.store m₂.id = none →
        (updatePipeline samples (updatePipeline samples s m₁).2.1 m₂).1
          ≠ (updatePipeline samples s m₁).1) := by
  have hstore : (updatePipeline samples s m₁).2.1.store m₁.id
      = some (updatePipeline samples s m₁).1 :=
    weakCached_store_self _ s m₁.id _
  have hlabel : (updatePipeline samples s m₁).1.label = mkPipelineOption samples m₁ := by
    unfold updatePipeline weakCached
    cases h : s.store m₁.id with
    | none => simp
    | some o =>
      by_cases hs : o.label = mkPipelineOption samples m₁
      · simp [hs]
      · simp [hs]
  constructor
  · have h2 : updatePipeline samples (updatePipeline samples s m₁).2.1 m₁
        = ((updatePipeline samples s m₁).1, (updatePipeline samples s m₁).2.1, 0) :=
      weakCached_hit _ _ m₁.id _ _ hstore (by simp [hlabel])
    rw [h2]
    exact ⟨rfl, rfl⟩
  · intro hne h₁ h₂
    have hwf₁ : (updatePipeline samples s m₁).2.1.wf PipelineObj.id :=
      weakCached_wf PipelineObj.id _ (fun _ => rfl) s m₁.id _ hwf
    have hid : (updatePipeline samples s m₁).1.id < (updatePipeline samples s m₁).2.1.nextId :=
      hwf₁ m₁.id _ hstore
    have h₂' : (updatePipeline samples s m₁).2.1.store m₂.id = none :=
      (weakCached_store_other _ s m₁.id _ m₂.id (fun h => hne h.symm)).trans h₂
    have h2 : updatePipeline samples (updatePipeline samples s m₁).2.1 m₂
        = (⟨(updatePipeline samples s m₁).2.1.nextId, mkPipelineOption samples m₂⟩,
           ⟨fun k' => if k' = m₂.id
              then some ⟨(updatePipeline samples s m₁).2.1.nextId, mkPipelineOption samples m₂⟩
              else (updatePipeline samples s m₁).2.1.store k',
            (updatePipeline samples s m₁).2.1.nextId + 1⟩, 1) :=
      weakCached_miss _ _ m₂.id _ h₂'
    rw [h2]
    intro heq
    have hids := congrArg PipelineObj.id heq
    simp only at hids
    omega

/-- Witness for C6's amended theorem at a concrete cache and meshes:
empty cache, two meshes with ids 0 and 1 and identical descriptors. -/
theorem c6_pipeline_cache_keyed_by_mesh_witness :
    ((updatePipeline 4
        (updatePipeline 4 ⟨fun _ => none, 0⟩
          ⟨0, ⟨false, "back", true, true, none⟩, ⟨"triangle-list", []⟩⟩).2.1
        ⟨0, ⟨false, "back", true, true, none⟩, ⟨"triangle-list", []⟩⟩).1
      = (updatePipeline 4 ⟨fun _ => none, 0⟩
          ⟨0, ⟨false, "back", true, true, none⟩, ⟨"triangle-list", []⟩⟩).1
      ∧ (updatePipeline 4
          (updatePipeline 4 ⟨fun _ => none, 0⟩
            ⟨0, ⟨false, "back", true, true, none⟩, ⟨"triangle-list", []⟩⟩).2.1
          ⟨0, ⟨false, "back", true, true, none⟩, ⟨"triangle-list", []⟩⟩).2.2 = 0)
    ∧ ((0 : Nat) ≠ 1 → (none : Option PipelineObj) = none → (none : Option PipelineObj) = none →
        (updatePipeline 4
          (updatePipeline 4 ⟨fun _ => none, 0⟩
            ⟨0, ⟨false, "back", true, true, none⟩, ⟨"triangle-list", []⟩⟩).2.1
          ⟨1, ⟨false, "back", true, true, none⟩, ⟨"triangle-list", []⟩⟩).1
          ≠ (updatePipeline 4 ⟨fun _ => none, 0⟩
              ⟨0, ⟨false, "back", true, true, none⟩, ⟨"triangle-list", []⟩⟩).1) :=
  c6_pipeline_cache_keyed_by_mesh 4 ⟨fun _ => none, 0⟩ (fun _ _ h => by simp at h)
    ⟨0, ⟨false, "back", true, true, none⟩, ⟨"triangle-list", []⟩⟩
    ⟨1, ⟨false, "back", true, true, none⟩, ⟨"triangle-list", []⟩⟩

/-! ## Uniform-buffer refresh (`WebGPURenderer._updatePipeline`, lines 233–243)

For each buffer-type uniform binding, the frame resolves the GPU buffer
through the cache (`_createBuffer` allocates and enqueues a full write on
creation), then — if the binding's `needsUpdate` flag is set — enqueues
`writeBuffer(buffer, data.byteOffset, data)` and clears the flag.  Queue
writes are logged with the originating binding's identity so "exactly one
write for that binding" is expressible. -/

/-- A typed-array value of a buffer binding: its view window into the
underlying `ArrayBuffer`. -/
structure TypedArrayRef where
  byteOffset : Nat
  byteLength : Nat
deriving DecidableEq

/-- A buffer-type uniform binding: object identity, backing value, dirty
flag. -/
structure BufferUniform where
  key : Nat
  value : TypedArrayRef
  needsUpdate : Bool
deriving DecidableEq

/-- One `device.queue.writeBuffer` call, tagged with the binding identity
it served. -/
structure QueueWrite where
  buffer : Nat
  bufferOffset : Nat
  byteLength : Nat
  srcKey : Nat
deriving DecidableEq

/-- Renderer state threaded through the per-binding uniform loop: the
buffer cache plus the frame's queue-write log. -/
structure MaterializerState where
  cache : CacheState Nat
  writes : List QueueWrite

/-- The buffer arm of the `uniforms.map` loop (source lines 234–243):
resolve the buffer via the cache (creation enqueues a full write at
offset 0, as `_createBuffer` does), then on `needsUpdate` enqueue one
write of the value at its byte offset and clear the flag. -/
def updateBufferBinding (s : MaterializerState) (v : BufferUniform) :
    Nat × MaterializerState × BufferUniform :=
  let r := weakCached (fun n => n) s.cache v.key (fun _ => false)
  let creationWrites : List QueueWrite :=
    if r.2.2 = 1 then [⟨r.1, 0, v.value.byteLength, v.key⟩] else []
  if v.needsUpdate then
    (r.1,
     ⟨r.2.1, (s.writes ++ creationWrites)
        ++ [⟨r.1, v.value.byteOffset, v.value.byteLength, v.key⟩]⟩,
     { v with needsUpdate := false })
  else (r.1, ⟨r.2.1, s.writes ++ creationWrites⟩, v)

/-- One frame's pass over the material's buffer bindings, in order,
returning the final state and the updated binding list. -/
def processUniforms : MaterializerState → List BufferUniform → MaterializerState × List BufferUniform
  | s, [] => (s, [])
  | s, v :: rest =>
      let r := updateBufferBinding s v
      let t := processUniforms r.2.1 rest
      (t.1, r.2.2 :: t.2)

/-- A step on a binding with another identity adds no writes for key `k`
and leaves key `k`'s cache entry alone. -/
theorem updateBufferBinding_other (s : MaterializerState) (u : BufferUniform) (k : Nat)
    (hk : u.key ≠ k) :
    (updateBufferBinding s u).2.1.writes.filter (fun w => w.srcKey = k)
        = s.writes.filter (fun w => w.srcKey = k)
    ∧ (updateBufferBinding s u).2.1.cache.store k = s.cache.store k := by
  have hstore := weakCached_store_other (fun n => n) s.cache u.key (fun _ => false) k
    (fun h => hk h.symm)
  unfold updateBufferBinding
  by_cases hd : u.needsUpdate <;>
    by_cases hcrea : (weakCached (fun n => n) s.cache u.key (fun _ => false)).2.2 = 1 <;>
      simp [hd, hcrea, hstore, List.filter_append, hk]

/-- A whole pass over bindings that all have identities other than `k`
adds no writes for `k` and leaves `k`'s cache entry alone. -/
theorem processUniforms_other (us : List BufferUniform) (s : MaterializerState) (k : Nat)
    (hk : ∀ u ∈ us, u.key ≠ k) :
    (processUniforms s us).1.writes.filter (fun w => w.srcKey = k)
        = s.writes.filter (fun w => w.srcKey = k)
    ∧ (processUniforms s us).1.cache.store k = s.cache.store k := by
  induction us generalizing s with
  | nil => exact ⟨rfl, rfl⟩
  | cons u rest ih =>
    have hu := updateBufferBinding_other s u k (hk u (List.mem_cons_self u rest))
    have hrest := ih (updateBufferBinding s u).2.1 (fun u' hu' => hk u' (List.mem_cons_of_mem u hu'))
    exact ⟨hrest.1.trans hu.1, hrest.2.trans hu.2⟩

/-- A step on a dirty binding whose buffer is already cached enqueues
exactly the one sub-range write, reuses the cached buffer and clears the
flag. -/
theorem updateBufferBinding_dirty_cached (s : MaterializerState) (v : BufferUniform) (b : Nat)
    (hb : s.cache.store v.key = some b) (hd : v.needsUpdate = true) :
    updateBufferBinding s v
      = (b, ⟨s.cache, s.writes ++ [⟨b, v.value.byteOffset, v.value.byteLength, v.key⟩]⟩,
         { v with needsUpdate := false }) := by
  have hcached : weakCached (fun n => n) s.cache v.key (fun _ => false) = (b, s.cache, 0) :=
    weakCached_hit (fun n => n) s.cache v.key (fun _ => false) b hb rfl
  unfold updateBufferBinding
  rw [hcached]
  simp [hd]

/-- The pass preserves the number of bindings. -/
theorem processUniforms_length (us : List BufferUniform) (s : MaterializerState) :
    (processUniforms s us).2.length = us.length := by
  induction us generalizing s with
  | nil => rfl
  | cons u rest ih => simpa [processUniforms] using ih _

/-- C3: for a buffer binding `v` that occurs in the frame's binding list
(at position `us₁.length`, with every other binding a different object),
whose GPU buffer `b` is already cached and whose dirty flag is set,
running the frame's uniform pass (a) appends exactly one queue write for
that binding — to the existing buffer `b`, at the value's byte offset,
of the value's byte length, (b) leaves the cached buffer entry for the
binding unchanged (no recreation), and (c) leaves the binding's dirty
flag false in the resulting binding list. -/
theorem c3_uniform_refresh_once (s : MaterializerState) (us₁ us₂ : List BufferUniform)
    (v : BufferUniform) (b : Nat)
    (h₁ : ∀ u ∈ us₁, u.key ≠ v.key) (h₂ : ∀ u ∈ us₂, u.key ≠ v.key)
    (hb : s.cache.store v.key = some b) (hd : v.needsUpdate = true) :
    (processUniforms s (us₁ ++ v :: us₂)).1.writes.filter (fun w => w.srcKey = v.key)
        = s.writes.filter (fun w => w.srcKey = v.key)
          ++ [⟨b, v.value.byteOffset, v.value.byteLength, v.key⟩]
    ∧ (processUniforms s (us₁ ++ v :: us₂)).1.cache.store v.key = some b
    ∧ (processUniforms s (us₁ ++ v :: us₂)).2[us₁.length]?
        = some { v with needsUpdate := false } := by
  induction us₁ generalizing s with
  | nil =>
    simp only [List.nil_append, List.length_nil]
    have hstep := updateBufferBinding_dirty_cached s v b hb hd
    have hrest := processUniforms_other us₂
      (updateBufferBinding s v).2.1 v.key h₂
    rw [hstep] at hrest
    simp only [processUniforms, hstep]
    refine ⟨?_, ?_, by simp⟩
    · rw [hrest.1]
      simp
    · rw [hrest.2]
      exact hb
  | cons u rest ih =>
    have hu := updateBufferBinding_other s u v.key (h₁ u (List.mem_cons_self u rest))
    have hih := ih (updateBufferBinding s u).2.1
      (fun u' hu' => h₁ u' (List.mem_cons_of_mem u hu')) (hu.2.trans hb)
    simp only [List.cons_append, processUniforms, List.length_cons, List.append_eq]
    refine ⟨?_, ?_, ?_⟩
    · rw [hih.1, hu.1]
    · exact hih.2.1
    · simpa using hih.2.2

/-- Witness for C3 at a concrete frame: one light binding (key 1, clean)
followed by the dirty binding of interest (key 5, value at byte offset 8,
length 16) whose buffer 42 is already cached; the pass appends exactly
one write `(buffer 42, offset 8, 16 bytes)` and clears the flag. -/
theorem c3_uniform_refresh_once_witness :
    (processUniforms ⟨⟨fun k => if k = 5 then some 42 else if k = 1 then some 7 else none, 43⟩, []⟩
        ([⟨1, ⟨0, 32⟩, false⟩] ++ ⟨5, ⟨8, 16⟩, true⟩ :: [])).1.writes.filter
          (fun w => w.srcKey = 5)
        = List.filter (fun w => w.srcKey = 5) [] ++ [⟨42, 8, 16, 5⟩]
    ∧ (processUniforms ⟨⟨fun k => if k = 5 then some 42 else if k = 1 then some 7 else none, 43⟩, []⟩
        ([⟨1, ⟨0, 32⟩, false⟩] ++ ⟨5, ⟨8, 16⟩, true⟩ :: [])).1.cache.store 5 = some 42
    ∧ (processUniforms ⟨⟨fun k => if k = 5 then some 42 else if k = 1 then some 7 else none, 43⟩, []⟩
        ([⟨1, ⟨0, 32⟩, false⟩] ++ ⟨5, ⟨8, 16⟩, true⟩ :: [])).2[[(⟨1, ⟨0, 32⟩, false⟩ : BufferUniform)].length]?
        = some ⟨5, ⟨8, 16⟩, false⟩ :=
  c3_uniform_refresh_once
    ⟨⟨fun k => if k = 5 then some 42 else if k = 1 then some 7 else none, 43⟩, []⟩
    [⟨1, ⟨0, 32⟩, false⟩] [] ⟨5, ⟨8, 16⟩, true⟩ 42
    (by intro u hu; simp at hu; simp [hu]) (by intro u hu; simp at hu)
    (by simp) rfl

/-! ## Render-target recreation (`WebGPURenderer._resizeSwapchain` / `setSize`)

`setSize(w, h)` sets the canvas dimensions and calls `_resizeSwapchain`,
which destroys the current MSAA texture (if any), creates a new one at
the canvas size, then does the same for the depth/stencil texture.
Creations and destructions are recorded in an event log so the
destroy-before-create order and absence of leaks are visible. -/

/-- A GPU texture object: identity plus the creation descriptor fields
the claim talks about. -/
structure TextureObj where
  id : Nat
  format : String
  width : Nat
  height : Nat
  sampleCount : Nat
deriving DecidableEq

/-- A texture lifecycle event. -/
inductive TexEvent where
  | created (id : Nat)
  | destroyed (id : Nat)
deriving DecidableEq

/-- The renderer state `_resizeSwapchain` touches. -/
structure RendererTargets where
  canvasWidth : Nat
  canvasHeight : Nat
  samples : Nat
  format : String
  msaaTexture : Option TextureObj
  depthTexture : Option TextureObj
  nextId : Nat
  log : List TexEvent

/-- The body of `_resizeSwapchain` (source lines 75–102): destroy the old
MSAA texture if present, create the new one at the canvas size with the
surface format and current sample count; then likewise for the
depth/stencil texture with format `depth24plus-stencil8`. -/
def resizeSwapchain (s : RendererTargets) : RendererTargets :=
  let s₁ : RendererTargets := match s.msaaTexture with
    | some t => { s with log := s.log ++ [.destroyed t.id] }
    | none => s
  let m : TextureObj := ⟨s₁.nextId, s.format, s.canvasWidth, s.canvasHeight, s.samples⟩
  let s₂ : RendererTargets :=
    { s₁ with nextId := s₁.nextId + 1, log := s₁.log ++ [.created s₁.nextId],
              msaaTexture := some m }
  let s₃ : RendererTargets := match s₂.depthTexture with
    | some t => { s₂ with log := s₂.log ++ [.destroyed t.id] }
    | none => s₂
  let d : TextureObj :=
    ⟨s₃.nextId, "depth24plus-stencil8", s.canvasWidth, s.canvasHeight, s.samples⟩
  { s₃ with nextId := s₃.nextId + 1, log := s₃.log ++ [.created s₃.nextId],
            depthTexture := some d }

/-- `setSize` (source lines 107–111): store the canvas size, then rebuild
the swap-chain targets. -/
def setSize (s : RendererTargets) (w h : Nat) : RendererTargets :=
  resizeSwapchain { s with canvasWidth := w, canvasHeight := h }

/-- C9: starting from any state whose targets exist (the constructor ran),
calling `setSize` twice with the same width and height gives MSAA and
depth textures of dimensions `(w, h)` after each call, and each call's
log segment destroys the previous MSAA texture before creating its
replacement and destroys the previous depth texture before creating its
replacement — so no previous target object survives undestroyed. -/
theorem c9_setSize_idempotent_no_leak (s : RendererTargets) (w h : Nat)
    (m₀ d₀ : TextureObj) (hm : s.msaaTexture = some m₀) (hd : s.depthTexture = some d₀) :
    ((setSize s w h).msaaTexture.map (fun t => (t.width, t.height)) = some (w, h)
      ∧ (setSize s w h).depthTexture.map (fun t => (t.width, t.height)) = some (w, h)
      ∧ (setSize (setSize s w h) w h).msaaTexture.map (fun t => (t.width, t.height))
          = some (w, h)
      ∧ (setSize (setSize s w h) w h).depthTexture.map (fun t => (t.width, t.height))
          = some (w, h))
    ∧ (setSize s w h).log
        = s.log ++ [.destroyed m₀.id, .created s.nextId, .destroyed d₀.id,
                    .created (s.nextId + 1)]
    ∧ (setSize (setSize s w h) w h).log
        = (setSize s w h).log
          ++ [.destroyed s.nextId, .created (s.nextId + 2), .destroyed (s.nextId + 1),
              .created (s.nextId + 3)] := by
  refine ⟨⟨?_, ?_, ?_, ?_⟩, ?_, ?_⟩ <;>
    simp [setSize, resizeSwapchain, hm, hd]

/-- Witness for C9 at a concrete state: canvas 1×1, targets with ids 0
and 1, resized twice to 800×600. -/
theorem c9_setSize_idempotent_no_leak_witness :
    ((setSize ⟨1, 1, 4, "bgra8unorm", some ⟨0, "bgra8unorm", 1, 1, 4⟩,
        some ⟨1, "depth24plus-stencil8", 1, 1, 4⟩, 2, []⟩ 800 600).msaaTexture.map
          (fun t => (t.width, t.height)) = some (800, 600)
      ∧ (setSize ⟨1, 1, 4, "bgra8unorm", some ⟨0, "bgra8unorm", 1, 1, 4⟩,
          some ⟨1, "depth24plus-stencil8", 1, 1, 4⟩, 2, []⟩ 800 600).depthTexture.map
            (fun t => (t.width, t.height)) = some (800, 600)
      ∧ (setSize (setSize ⟨1, 1, 4, "bgra8unorm", some ⟨0, "bgra8unorm", 1, 1, 4⟩,
          some ⟨1, "depth24plus-stencil8", 1, 1, 4⟩, 2, []⟩ 800 600) 800 600).msaaTexture.map
            (fun t => (t.width, t.height)) = some (800, 600)
      ∧ (setSize (setSize ⟨1, 1, 4, "bgra8unorm", some ⟨0, "bgra8unorm", 1, 1, 4⟩,
          some ⟨1, "depth24plus-stencil8", 1, 1, 4⟩, 2, []⟩ 800 600) 800 600).depthTexture.map
            (fun t => (t.width, t.height)) = some (800, 600))
    ∧ (setSize ⟨1, 1, 4, "bgra8unorm", some ⟨0, "bgra8unorm", 1, 1, 4⟩,
        some ⟨1, "depth24plus-stencil8", 1, 1, 4⟩, 2, []⟩ 800 600).log
        = [] ++ [.destroyed 0, .created 2, .destroyed 1, .created 3]
    ∧ (setSize (setSize ⟨1, 1, 4, "bgra8unorm", some ⟨0, "bgra8unorm", 1, 1, 4⟩,
        some ⟨1, "depth24plus-stencil8", 1, 1, 4⟩, 2, []⟩ 800 600) 800 600).log
        = (setSize ⟨1, 1, 4, "bgra8unorm", some ⟨0, "bgra8unorm", 1, 1, 4⟩,
            some ⟨1, "depth24plus-stencil8", 1, 1, 4⟩, 2, []⟩ 800 600).log
          ++ [.destroyed 2, .created 4, .destroyed 3, .created 5] :=
  c9_setSize_idempotent_no_leak
    ⟨1, 1, 4, "bgra8unorm", some ⟨0, "bgra8unorm", 1, 1, 4⟩,
      some ⟨1, "depth24plus-stencil8", 1, 1, 4⟩, 2, []⟩ 800 600
    ⟨0, "bgra8unorm", 1, 1, 4⟩ ⟨1, "depth24plus-stencil8", 1, 1, 4⟩ rfl rfl

/-! ## PBRMaterial property setters (`src/lib/pbr_material.ts`, lines 75–123)

`PBRMaterial` packs its parameters into one 32-byte `_pbrBuffer`
(albedo `vec3` at bytes 0–11, metallic/roughness/occlusion floats at
bytes 12–23, a `Uint32` flag word at bytes 24–27, 4 bytes of padding),
which is `uniforms[0]`, the material's first uniform binding.  Every
setter mutates its view of that buffer (or the texture slots and the flag
word) and sets `this.uniforms[0].needsUpdate = true`. -/

/-- Modelled from its call sites: `setBitOfValue` from `./utils` (not in
the sources) sets or clears one bit of a `Uint32` value. -/
def setBitOfValue (value : Nat) (bit : Nat) (b : Bool) : Nat :=
  if b then (value ||| (1 <<< bit)) % 2 ^ 32
  else (value &&& ((2 ^ 32 - 1) ^^^ (1 <<< bit))) % 2 ^ 32

/-- The texture identity stored when a texture property is cleared
(`v ?? defaultTexture`). -/
def defaultTextureId : Nat := 0

/-- The PBR material state: the typed-array views into `_pbrBuffer`
(`_albedo`, `_pbrParamsValue`, `_pbrFlag`), the first uniform binding's
dirty flag, and the two texture slots `uniforms[2]` / `uniforms[3]`. -/
structure PBRMaterialState where
  albedo : Fin 3 → ℚ
  metallic : ℚ
  roughness : ℚ
  occlusion : ℚ
  pbrFlag : Nat
  pbrNeedsUpdate : Bool
  albedoTexture : Nat
  ormTexture : Nat

/-- One four-byte word of the 32-byte PBR parameter buffer. -/
inductive PbrWord where
  | f (x : ℚ)
  | u (n : Nat)
  | pad
deriving DecidableEq

/-- The 32-byte `_pbrBuffer` as its eight four-byte words: albedo at
words 0–2, metallic/roughness/occlusion at words 3–5, the flag word at
word 6 (byte offset 24), padding at word 7. -/
def pbrBufferWords (m : PBRMaterialState) (i : Fin 8) : PbrWord :=
  match i with
  | 0 => .f (m.albedo 0)
  | 1 => .f (m.albedo 1)
  | 2 => .f (m.albedo 2)
  | 3 => .f m.metallic
  | 4 => .f m.roughness
  | 5 => .f m.occlusion
  | 6 => .u m.pbrFlag
  | 7 => .pad

/-- The `albedo` setter: copy into the `_albedo` view, dirty the first
uniform binding. -/
def setAlbedo (m : PBRMaterialState) (v : Fin 3 → ℚ) : PBRMaterialState :=
  { m with albedo := v, pbrNeedsUpdate := true }

/-- The `metallic` setter. -/
def setMetallic (m : PBRMaterialState) (v : ℚ) : PBRMaterialState :=
  { m with metallic := v, pbrNeedsUpdate := true }

/-- The `roughness` setter. -/
def setRoughness (m : PBRMaterialState) (v : ℚ) : PBRMaterialState :=
  { m with roughness := v, pbrNeedsUpdate := true }

/-- The `occlusion` setter. -/
def setOcclusion (m : PBRMaterialState) (v : ℚ) : PBRMaterialState :=
  { m with occlusion := v, pbrNeedsUpdate := true }

/-- The `albedoTexture` setter: store `v ?? defaultTexture` in
`uniforms[2]`, set bit 0 of the flag word to the presence of `v`, dirty
the first uniform binding. -/
def setAlbedoTexture (m : PBRMaterialState) (v : Option Nat) : PBRMaterialState :=
  { m with albedoTexture := v.getD defaultTextureId,
           pbrFlag := setBitOfValue m.pbrFlag 0 v.isSome,
           pbrNeedsUpdate := true }

/-- The `occlusionRoughnessMetallicTexture` setter: store
`v ?? defaultTexture` in `uniforms[3]`, set bit 1 of the flag word to the
presence of `v`, dirty the first uniform binding. -/
def setOcclusionRoughnessMetallicTexture (m : PBRMaterialState) (v : Option Nat) :
    PBRMaterialState :=
  { m with ormTexture := v.getD defaultTextureId,
           pbrFlag := setBitOfValue m.pbrFlag 1 v.isSome,
           pbrNeedsUpdate := true }

/-- C10: every PBRMaterial property setter leaves the first uniform
binding (the PBR parameter buffer) dirty; the texture setters write the
presence bit into the flag word, which is word 6 (byte offset 24) of the
same 32-byte PBR buffer — they change no other word of it — so clearing
or assigning a texture also dirties exactly that buffer binding. -/
theorem c10_setters_dirty_pbr_buffer (m : PBRMaterialState) (va : Fin 3 → ℚ)
    (x : ℚ) (t : Option Nat) :
    (setAlbedo m va).pbrNeedsUpdate = true
    ∧ (setMetallic m x).pbrNeedsUpdate = true
    ∧ (setRoughness m x).pbrNeedsUpdate = true
    ∧ (setOcclusion m x).pbrNeedsUpdate = true
    ∧ (setAlbedoTexture m t).pbrNeedsUpdate = true
    ∧ (setOcclusionRoughnessMetallicTexture m t).pbrNeedsUpdate = true
    ∧ pbrBufferWords (setAlbedoTexture m t) 6 = .u (setBitOfValue m.pbrFlag 0 t.isSome)
    ∧ pbrBufferWords (setOcclusionRoughnessMetallicTexture m t) 6
        = .u (setBitOfValue m.pbrFlag 1 t.isSome)
    ∧ (∀ i : Fin 8, i ≠ 6 → pbrBufferWords (setAlbedoTexture m t) i = pbrBufferWords m i)
    ∧ (∀ i : Fin 8, i ≠ 6 →
        pbrBufferWords (setOcclusionRoughnessMetallicTexture m t) i = pbrBufferWords m i) := by
  refine ⟨rfl, rfl, rfl, rfl, rfl, rfl, rfl, rfl, ?_, ?_⟩ <;>
    · intro i hi
      fin_cases i <;> first
        | rfl
        | exact absurd rfl hi

/-! ## Render-list ordering (`WebGPURenderer.sort`, lines 361–402)

`sort` collects the visible meshes and sorts them with the comparator
(JavaScript `Array.prototype.sort`, a stable sort consistent with a
consistent comparator):

  `res = Number(b.depthTest) - Number(a.depthTest)` —
  then, with a camera, `res = res || (z(b) - z(a))` on the world
  translations projected through the projection-view matrix —
  then `res = res || (Number(a.transparent) - Number(b.transparent))`.

Matrices come from the out-of-scope math library (gl-matrix semantics,
column-major `Float32Array`s), modelled as `Matrix (Fin 4) (Fin 4) ℚ`;
the flat index 12/13/14 translation entries are rows 0–2 of column 3. -/

/-- A four-by-four matrix over the rationals (a column-major
`Float32Array(16)` in the source). -/
abbrev Mat4 := Matrix (Fin 4) (Fin 4) ℚ

/-- The material fields `sort` reads. -/
structure SMaterial where
  depthTest : Bool
  transparent : Bool

/-- A drawable node as `sort` sees it: material flags plus the world
matrix whose translation column is projected for depth sorting. -/
structure SMesh where
  material : SMaterial
  matrix : Mat4

/-- The camera fields `sort` reads. -/
structure SCamera where
  projectionMatrix : Mat4
  viewMatrix : Mat4
  projectionViewMatrix : Mat4
  matrixAutoUpdate : Bool

/-- The camera update at the top of `sort`: when `matrixAutoUpdate` is
set, recompute `projectionViewMatrix = projectionMatrix * viewMatrix`. -/
def camBeforeSort : Option SCamera → Option SCamera
  | none => none
  | some c =>
      if c.matrixAutoUpdate
      then some { c with projectionViewMatrix := c.projectionMatrix * c.viewMatrix }
      else some c

/-- The `z` component of gl-matrix `vec3.transformMat4`: transform
`(x, y, z, 1)` by `M` and divide by the resulting `w` (replaced by 1 when
it is zero). -/
def transformMat4Z (M : Mat4) (x y z : ℚ) : ℚ :=
  let w := M 3 0 * x + M 3 1 * y + M 3 2 * z + M 3 3
  let w' := if w = 0 then 1 else w
  (M 2 0 * x + M 2 1 * y + M 2 2 * z + M 2 3) / w'

/-- A mesh's view-space depth key: its world translation projected
through the camera's projection-view matrix. -/
def projectedDepth (c : SCamera) (m : SMesh) : ℚ :=
  transformMat4Z c.projectionViewMatrix (m.matrix 0 3) (m.matrix 1 3) (m.matrix 2 3)

/-- JavaScript boolean-to-number coercion. -/
def boolToNum (b : Bool) : ℚ := if b then 1 else 0

/-- JavaScript `res || x` on numbers: `x` when `res` is zero, else `res`. -/
def jsOr (r x : ℚ) : ℚ := if r = 0 then x else r

/-- The comparator of `sort` (source lines 385–401). -/
def sortCompare (c? : Option SCamera) (a b : SMesh) : ℚ :=
  let r₁ := boolToNum b.material.depthTest - boolToNum a.material.depthTest
  let r₂ := match c? with
    | none => r₁
    | some c => jsOr r₁ (projectedDepth c b - projectedDepth c a)
  jsOr r₂ (boolToNum a.material.transparent - boolToNum b.material.transparent)

/-- The depth tie-break key the comparator uses: the projected depth when
a camera is present, else a constant (no depth tie-break). -/
def depthKey : Option SCamera → SMesh → ℚ
  | none, _ => 0
  | some c, m => projectedDepth c m

/-- `sort`'s ordering pass: JavaScript's stable `Array.prototype.sort`
with the comparator, applied to the collected render list, after the
camera's projection-view update. -/
def rendererSort (c? : Option SCamera) (l : List SMesh) : List SMesh :=
  l.mergeSort fun a b => decide (sortCompare (camBeforeSort c?) a b ≤ 0)

theorem jsOr_lt_zero (r x : ℚ) : jsOr r x < 0 ↔ (r < 0 ∨ (r = 0 ∧ x < 0)) := by
  unfold jsOr
  by_cases h : r = 0 <;> simp [h]

theorem jsOr_eq_zero (r x : ℚ) : jsOr r x = 0 ↔ (r = 0 ∧ x = 0) := by
  unfold jsOr
  by_cases h : r = 0 <;> simp [h]

theorem jsOr_le_zero (r x : ℚ) : jsOr r x ≤ 0 ↔ (r < 0 ∨ (r = 0 ∧ x ≤ 0)) := by
  unfold jsOr
  by_cases h : r = 0
  · simp [h]
  · simp only [if_neg h, h, false_and, or_false]
    exact ⟨fun hle => lt_of_le_of_ne hle h, le_of_lt⟩

/-- The comparator accepts (`≤ 0`) exactly when the lexicographic key
(descending depth-test flag, then descending projected depth, then
ascending transparency flag) accepts. -/
theorem sortCompare_le_zero_iff (c? : Option SCamera) (a b : SMesh) :
    sortCompare c? a b ≤ 0 ↔
      (boolToNum b.material.depthTest < boolToNum a.material.depthTest
       ∨ (boolToNum a.material.depthTest = boolToNum b.material.depthTest
          ∧ (depthKey c? b < depthKey c? a
             ∨ (depthKey c? a = depthKey c? b
                ∧ boolToNum a.material.transparent ≤ boolToNum b.material.transparent)))) := by
  cases c? with
  | none =>
    simp only [sortCompare, depthKey, jsOr_le_zero]
    constructor
    · rintro (h | ⟨h₁, h₂⟩)
      · exact Or.inl (by linarith)
      · exact Or.inr ⟨by linarith, Or.inr ⟨by trivial, by linarith⟩⟩
    · rintro (h | ⟨h₁, h₂ | ⟨h₂, h₃⟩⟩)
      · exact Or.inl (by linarith)
      · first
        | exact h₂.elim
        | exact absurd h₂ (lt_irrefl 0)
      · exact Or.inr ⟨by linarith, by linarith⟩
  | some c =>
    simp only [sortCompare, depthKey, jsOr_le_zero, jsOr_lt_zero, jsOr_eq_zero]
    constructor
    · rintro ((h | ⟨h₁, h₂⟩) | ⟨⟨h₁, h₂⟩, h₃⟩)
      · exact Or.inl (by linarith)
      · exact Or.inr ⟨by linarith, Or.inl (by linarith)⟩
      · exact Or.inr ⟨by linarith, Or.inr ⟨by linarith, by linarith⟩⟩
    · rintro (h | ⟨h₁, h₂ | ⟨h₂, h₃⟩⟩)
      · exact Or.inl (Or.inl (by linarith))
      · exact Or.inl (Or.inr ⟨by linarith, by linarith⟩)
      · exact Or.inr ⟨⟨by linarith, by linarith⟩, by linarith⟩

/-- The comparator-induced `le` is total. -/
theorem sortCompare_total (c? : Option SCamera) (a b : SMesh) :
    (decide (sortCompare c? a b ≤ 0) || decide (sortCompare c? b a ≤ 0)) = true := by
  rcases le_or_lt (sortCompare c? a b) 0 with h | h
  · simp [h]
  · have h' : ¬ sortCompare c? a b ≤ 0 := not_le.mpr h
    rw [sortCompare_le_zero_iff] at h'
    push_neg at h'
    obtain ⟨h₁, h₂⟩ := h'
    simp only [Bool.or_eq_true, decide_eq_true_eq]
    right
    rw [sortCompare_le_zero_iff]
    rcases lt_trichotomy (boolToNum b.material.depthTest) (boolToNum a.material.depthTest)
      with hdt | hdt | hdt
    · exact absurd hdt (not_lt.mpr h₁)
    · obtain ⟨h₃, h₄⟩ := h₂ hdt.symm
      rcases lt_trichotomy (depthKey c? b) (depthKey c? a) with hz | hz | hz
      · exact absurd hz (not_lt.mpr h₃)
      · exact Or.inr ⟨hdt, Or.inr ⟨hz, by linarith [h₄ hz.symm]⟩⟩
      · exact Or.inr ⟨hdt, Or.inl hz⟩
    · exact Or.inl hdt

/-- The comparator-induced `le` is transitive. -/
theorem sortCompare_trans (c? : Option SCamera) (a b c : SMesh)
    (hab : decide (sortCompare c? a b ≤ 0) = true)
    (hbc : decide (sortCompare c? b c ≤ 0) = true) :
    decide (sortCompare c? a c ≤ 0) = true := by
  simp only [decide_eq_true_eq, sortCompare_le_zero_iff] at hab hbc ⊢
  rcases hab with h | ⟨h₁, h₂⟩ <;> rcases hbc with g | ⟨g₁, g₂⟩
  · exact Or.inl (by linarith)
  · exact Or.inl (by linarith)
  · exact Or.inl (by linarith)
  · refine Or.inr ⟨by linarith, ?_⟩
    rcases h₂ with h | ⟨hz, ht⟩ <;> rcases g₂ with g | ⟨gz, gt⟩
    · exact Or.inl (by linarith)
    · exact Or.inl (by linarith)
    · exact Or.inl (by linarith)
    · exact Or.inr ⟨by linarith, by linarith⟩

/-- The ordering facts one comparator acceptance carries: never a
depth-test-disabled node before an enabled one; within one depth-test
tier, non-increasing projected depth; within one depth tier at equal
depth, never a transparent node before an opaque one. -/
theorem sortCompare_le_props (c? : Option SCamera) (a b : SMesh)
    (h : sortCompare c? a b ≤ 0) :
    ¬(a.material.depthTest = false ∧ b.material.depthTest = true)
    ∧ (a.material.depthTest = b.material.depthTest → depthKey c? b ≤ depthKey c? a)
    ∧ (a.material.depthTest = b.material.depthTest → depthKey c? a = depthKey c? b →
        ¬(a.material.transparent = true ∧ b.material.transparent = false)) := by
  rw [sortCompare_le_zero_iff] at h
  refine ⟨?_, ?_, ?_⟩
  · rintro ⟨ha, hb⟩
    rw [ha, hb] at h
    rcases h with h | ⟨h, _⟩ <;> norm_num [boolToNum] at h
  · intro hdt
    rw [hdt] at h
    rcases h with h | ⟨_, h | ⟨h, _⟩⟩
    · exact absurd h (lt_irrefl _)
    · exact le_of_lt h
    · exact le_of_eq h.symm
  · intro hdt hz
    rw [hdt] at h
    rcases h with h | ⟨_, h | ⟨_, ht⟩⟩
    · exact absurd h (lt_irrefl _)
    · rw [hz] at h
      exact absurd h (lt_irrefl _)
    · rintro ⟨hta, htb⟩
      rw [hta, htb] at ht
      norm_num [boolToNum] at ht

/-- C1 as amended: for every node list and optional camera, `sort`
returns a permutation of the list in which depth-test-ENABLED nodes
precede depth-test-disabled nodes (the source comparator
`Number(b.depthTest) - Number(a.depthTest)` pushes depth-test-disabled
UI nodes to the end of the submission order); among nodes in the same
depth-test tier, when a camera is supplied, nodes whose world translation
projected through the camera's projection-view matrix is farther (greater
depth) come no later than nearer ones; among nodes still tied, no
transparent node precedes an opaque one; and nodes whose comparator keys
tie retain their traversal order (stability). -/
theorem c1_sort_order (c? : Option SCamera) (l : List SMesh) :
    List.Perm (rendererSort c? l) l
    ∧ (rendererSort c? l).Pairwise (fun a b =>
        ¬(a.material.depthTest = false ∧ b.material.depthTest = true)
        ∧ (a.material.depthTest = b.material.depthTest →
            depthKey (camBeforeSort c?) b ≤ depthKey (camBeforeSort c?) a)
        ∧ (a.material.depthTest = b.material.depthTest →
            depthKey (camBeforeSort c?) a = depthKey (camBeforeSort c?) b →
            ¬(a.material.transparent = true ∧ b.material.transparent = false)))
    ∧ (∀ a b : SMesh, sortCompare (camBeforeSort c?) a b = 0 →
        List.Sublist [a, b] l → List.Sublist [a, b] (rendererSort c? l)) := by
  refine ⟨List.mergeSort_perm l _, ?_, ?_⟩
  · have hs := @List.sorted_mergeSort SMesh
      (fun a b => decide (sortCompare (camBeforeSort c?) a b ≤ 0))
      (sortCompare_trans (camBeforeSort c?)) (sortCompare_total (camBeforeSort c?)) l
    exact hs.imp (fun hab => sortCompare_le_props _ _ _ (by simpa using hab))
  · intro a b h0 hsub
    exact List.pair_sublist_mergeSort
      (sortCompare_trans (camBeforeSort c?)) (sortCompare_total (camBeforeSort c?))
      (by simp [h0]) hsub

/-- Evaluation of the stable sort on a two-element list. -/
theorem mergeSort_pair {α : Type} (le : α → α → Bool) (a b : α) :
    [a, b].mergeSort le = if le a b then [a, b] else [b, a] := by
  rw [List.mergeSort]
  simp [List.splitInTwo, List.splitAt, List.splitAt.go, List.merge]

/-- A depth-test-disabled, opaque mesh at the origin. -/
def uiOverlayMesh : SMesh := ⟨⟨false, false⟩, 1⟩

/-- A depth-test-enabled, opaque mesh at the origin. -/
def solidOpaqueMesh : SMesh := ⟨⟨true, false⟩, 1⟩

/-- C1 counterexample: sorting `[uiOverlayMesh, solidOpaqueMesh]` (no
camera) yields the depth-test-ENABLED mesh first and the disabled one
last — the opposite of the claim's "depth-test-disabled nodes precede
depth-test-enabled nodes". -/
theorem c1_depth_test_order_counterexample :
    uiOverlayMesh.material.depthTest = false
    ∧ solidOpaqueMesh.material.depthTest = true
    ∧ (rendererSort none [uiOverlayMesh, solidOpaqueMesh]).map
        (fun m => m.material.depthTest) = [true, false] := by
  refine ⟨rfl, rfl, ?_⟩
  unfold rendererSort
  rw [mergeSort_pair]
  norm_num [sortCompare, camBeforeSort, boolToNum, jsOr, uiOverlayMesh, solidOpaqueMesh]

/-! ## Vertex-input struct splicing (`WebGPURenderer._updatePipeline`, lines 274–286)

On pipeline (re)creation the renderer builds, from the geometry's vertex
buffers whose attribute name is one of `builtinAttributeNames`, the lines
of a `VertexInput` struct (sequential `@location` indices over the kept
attributes, joined with `',\n'`).  If that string is non-empty it matches
the shader source against the anchored regular expression
`/^struct VertexInput \x7b\n(.|\n)*?\x7d/` — anchored at the start of the
source, lazily up to the first closing brace — and replaces the match
(which, being anchored, is a prefix, so `String.replace` of its first
occurrence rewrites the head of the source), else prepends the generated
struct; if the string is empty nothing happens. -/

/-- The recognized vertex attribute names (source line 465). -/
def builtinAttributeNames : List String := ["POSITION", "NORMAL", "TANGENT", "TEXCOORD_0"]

/-- A declared vertex attribute: shader name and WGSL type. -/
structure VertexAttribute where
  name : String
  type : String

/-- The attributes the splice keeps: those vertex buffers that declare an
attribute whose name is in the recognized set, in order. -/
def keptAttributes (vbs : List (Option VertexAttribute)) : List VertexAttribute :=
  (vbs.filterMap id).filter (fun a => builtinAttributeNames.contains a.name)

/-- One member line of the generated struct:
`  @location(i) name: type`. -/
def memberLine (i : Nat) (a : VertexAttribute) : String :=
  "  @location(" ++ toString i ++ ") " ++ a.name ++ ": " ++ a.type

/-- JavaScript `Array.prototype.join(sep)`. -/
def joinSep (sep : String) : List String → String
  | [] => ""
  | [x] => x
  | x :: y :: xs => x ++ sep ++ joinSep sep (y :: xs)

/-- The `vertexInputStr` of the source: kept attribute lines joined with
`',\n'`. -/
def vertexInputStr (vbs : List (Option VertexAttribute)) : String :=
  joinSep ",\n" ((keptAttributes vbs).mapIdx memberLine)

/-- The literal head the anchored regular expression requires:
`struct VertexInput \x7b` followed by a newline. -/
def structHead : String := "struct VertexInput \x7b\n"

/-- Boolean list-prefix test (the anchor of the regular expression). -/
def leadsWith : List Char → List Char → Bool
  | [], _ => true
  | _ :: _, [] => false
  | a :: as, b :: bs => a = b && leadsWith as bs

/-- The match of `/^struct VertexInput \x7b\n(.|\n)*?\x7d/` against the
shader source: anchored at the start, extending lazily to the first
closing brace; `none` when the source does not begin with the struct head
or no closing brace follows. -/
def vertexInputMatch (code : String) : Option String :=
  if leadsWith structHead.toList code.toList then
    match (code.toList.drop structHead.length).findIdx? (fun c => c = '\x7d') with
    | some n => some ((code.toList.take (structHead.length + n + 1)).asString)
    | none => none
  else none

/-- The generated replacement struct:
`struct VertexInput \x7b\n` ++ members ++ `\n\x7d`. -/
def genVertexInputStruct (vbs : List (Option VertexAttribute)) : String :=
  structHead ++ vertexInputStr vbs ++ "\n\x7d"

/-- The splice (source lines 278–286): if no recognized attribute
produced a member line, leave the source alone; else replace the anchored
match (a prefix of the source) when it exists, otherwise prepend the
generated struct and a newline. -/
def spliceVertexInput (vbs : List (Option VertexAttribute)) (code : String) : String :=
  if vertexInputStr vbs = "" then code
  else
    match vertexInputMatch code with
    | some old => genVertexInputStruct vbs ++ (code.drop old.length)
    | none => genVertexInputStruct vbs ++ "\n" ++ code

theorem data_ne_nil_of_ne_empty {x : String} (hx : x ≠ "") : x.data ≠ [] := by
  intro h
  apply hx
  cases x
  simp only at h
  rw [h]

theorem memberLine_ne_empty (i : Nat) (a : VertexAttribute) : memberLine i a ≠ "" := by
  intro h
  have h2 := congrArg (fun s => s.data.length) h
  simp only [memberLine, String.data_append, List.length_append, List.length_cons,
    List.length_nil] at h2
  have hlit : ("  @location(" : String).data.length = 12 := rfl
  have hnil : ("" : String).data.length = 0 := rfl
  omega

theorem joinSep_cons_ne_empty (sep x : String) (xs : List String) (hx : x ≠ "") :
    joinSep sep (x :: xs) ≠ "" := by
  cases xs with
  | nil => simpa [joinSep] using hx
  | cons y ys =>
    simp only [joinSep]
    intro h
    have h2 := congrArg (fun s => s.data.length) h
    simp only [String.data_append, List.length_append, List.length_cons,
      List.length_nil] at h2
    have hx' : x.data ≠ [] := data_ne_nil_of_ne_empty hx
    have hx'' : x.data.length ≠ 0 := fun h0 => hx' (List.length_eq_zero.mp h0)
    have hnil : ("" : String).data.length = 0 := rfl
    omega

/-- The generated member string is empty exactly when no attribute was
kept. -/
theorem vertexInputStr_eq_empty_iff (vbs : List (Option VertexAttribute)) :
    vertexInputStr vbs = "" ↔ keptAttributes vbs = [] := by
  unfold vertexInputStr
  cases h : (keptAttributes vbs).mapIdx memberLine with
  | nil =>
    have := congrArg List.length h
    simp only [List.length_mapIdx, List.length_nil] at this
    simp [joinSep, List.length_eq_zero.mp this]
  | cons x xs =>
    have hx : x ∈ (keptAttributes vbs).mapIdx memberLine := by
      rw [h]; exact List.mem_cons_self x xs
    obtain ⟨i, a, -, rfl⟩ : ∃ i a, i < (keptAttributes vbs).length ∧ memberLine i a = x := by
      obtain ⟨i, hi, hv⟩ := List.mem_iff_getElem.mp hx
      rw [List.getElem_mapIdx] at hv
      exact ⟨i, _, by simpa using hi, hv⟩
    constructor
    · intro hempty
      exact absurd hempty (joinSep_cons_ne_empty _ _ _ (memberLine_ne_empty i a))
    · intro hkept
      rw [hkept] at h
      simp at h

/-- C8 as amended: the splice happens only when at least one declared
attribute is recognized; the generated struct's member list has exactly
one line per kept attribute, in order, with sequential `@location`
indices, and unrecognized attribute names contribute no member; the
generated struct replaces the head of the shader source when the source
begins with a `VertexInput` struct declaration (the anchored match),
and is prepended otherwise; with no recognized attribute the source is
left unchanged. -/
theorem c8_vertex_input_splice (vbs : List (Option VertexAttribute)) (code : String) :
    (keptAttributes vbs = [] → spliceVertexInput vbs code = code)
    ∧ (keptAttributes vbs ≠ [] →
        (∀ old, vertexInputMatch code = some old →
            spliceVertexInput vbs code = genVertexInputStruct vbs ++ code.drop old.length)
        ∧ (vertexInputMatch code = none →
            spliceVertexInput vbs code = genVertexInputStruct vbs ++ "\n" ++ code))
    ∧ (∀ i : Nat, ((keptAttributes vbs).mapIdx memberLine)[i]?
        = ((keptAttributes vbs)[i]?).map (fun a => memberLine i a))
    ∧ (∀ a ∈ keptAttributes vbs, builtinAttributeNames.contains a.name = true)
    ∧ (∀ a : VertexAttribute, builtinAttributeNames.contains a.name = false →
        a ∉ keptAttributes vbs) := by
  refine ⟨?_, ?_, ?_, ?_, ?_⟩
  · intro hkept
    unfold spliceVertexInput
    rw [if_pos ((vertexInputStr_eq_empty_iff vbs).mpr hkept)]
  · intro hkept
    have hne : ¬ vertexInputStr vbs = "" :=
      fun h => hkept ((vertexInputStr_eq_empty_iff vbs).mp h)
    constructor
    · intro old hold
      unfold spliceVertexInput
      rw [if_neg hne, hold]
    · intro hnone
      unfold spliceVertexInput
      rw [if_neg hne, hnone]
  · intro i
    simp [List.getElem?_mapIdx]
  · intro a ha
    exact (List.mem_filter.mp ha).2
  · intro a hcontains ha
    rw [(List.mem_filter.mp ha).2] at hcontains
    cases hcontains

/-- The number of positions where a `VertexInput` struct declaration
begins in the source. -/
def countStructDecls (code : String) : Nat :=
  (List.range code.toList.length).countP
    (fun i => leadsWith "struct VertexInput".toList (code.toList.drop i))

set_option maxRecDepth 8192 in
/-- C8 counterexample, refuting two points of the claim on the source's
behaviour.  First, with one recognized `POSITION` attribute and a shader
whose `VertexInput` struct is *not at the start* of the source (a comment
precedes it), the claim says the struct is replaced, but the anchored
match fails and the generated struct is prepended: the result declares
`struct VertexInput` twice.  Second, with only an unrecognized `COLOR`
attribute and a shader that does declare a `VertexInput` struct, the
claim says an (empty-membered) struct is spliced replacing it, but the
source is left completely unchanged. -/
theorem c8_splice_counterexample :
    countStructDecls (spliceVertexInput [some ⟨"POSITION", "vec3f"⟩]
        "// hdr\nstruct VertexInput \x7b\n  @location(0) POSITION: vec3f\n\x7d\nfn vs_main() \x7b\x7d") = 2
    ∧ spliceVertexInput [some ⟨"COLOR", "vec4f"⟩]
        "struct VertexInput \x7b\n  @location(0) COLOR: vec4f\n\x7d\nfn vs_main() \x7b\x7d"
      = "struct VertexInput \x7b\n  @location(0) COLOR: vec4f\n\x7d\nfn vs_main() \x7b\x7d" := by
  constructor
  · decide
  · decide

/-! ## The base uniform block (`WebGPURenderer._updatePipeline`, lines 213–228)

Each frame the renderer rewrites the 80-float base uniform buffer:
model matrix into floats 0–15, the camera's view matrix into 16–31, the
projection matrix into 32–47, model-view (`view * model`, in that order:
`Mat4.mul(mv, mv, model)` after copying the view) into 48–63, the normal
matrix (`Mat3.normalFromMat4` of the model-view) into 64–72, the camera
world position into 76–78; then sets the base binding's `needsUpdate`.
The `Camera` component (`camera.tsx`, lines 41–47) maintains
`viewMatrix = invert(camera world matrix)`.  The math collaborator is out
of scope with gl-matrix semantics: `invert` is the matrix inverse
(modelled as adjugate over determinant), and `normalFromMat4` is the
transposed upper-left three-by-three block of the four-by-four inverse,
which on affine matrices is the inverse-transpose of the upper
three-by-three block. -/

/-- The upper-left three-by-three block of a four-by-four matrix. -/
def upper3 (M : Mat4) : Matrix (Fin 3) (Fin 3) ℚ :=
  Matrix.of fun i j => M i.castSucc j.castSucc

/-- An affine transform: the bottom row (flat indices 3, 7, 11, 15 of the
column-major array) is `(0, 0, 0, 1)`. -/
def affine4 (M : Mat4) : Prop :=
  M 3 0 = 0 ∧ M 3 1 = 0 ∧ M 3 2 = 0 ∧ M 3 3 = 1

/-- Matrix inversion as gl-matrix `mat4.invert` computes it (the adjugate
divided by the determinant); on a singular matrix gl-matrix bails out,
modelled by returning the input. -/
def mat4invert (M : Mat4) : Mat4 :=
  if M.det = 0 then M else M.det⁻¹ • M.adjugate

/-- The inverse is a left inverse. -/
theorem mat4invert_mul (M : Mat4) (h : M.det ≠ 0) : mat4invert M * M = 1 := by
  unfold mat4invert
  rw [if_neg h, Matrix.smul_mul, Matrix.adjugate_mul, smul_smul, inv_mul_cancel₀ h, one_smul]

/-- The inverse is a right inverse. -/
theorem mul_mat4invert (M : Mat4) (h : M.det ≠ 0) : M * mat4invert M = 1 := by
  unfold mat4invert
  rw [if_neg h, Matrix.mul_smul, Matrix.mul_adjugate, smul_smul, inv_mul_cancel₀ h, one_smul]

/-- The inverse of a nonsingular matrix is nonsingular. -/
theorem det_mat4invert_ne_zero (M : Mat4) (h : M.det ≠ 0) : (mat4invert M).det ≠ 0 := by
  have h1 := congrArg Matrix.det (mat4invert_mul M h)
  rw [Matrix.det_mul, Matrix.det_one] at h1
  intro h0
  rw [h0, zero_mul] at h1
  exact zero_ne_one h1

/-- Affine transforms are closed under multiplication. -/
theorem affine4_mul (A B : Mat4) (ha : affine4 A) (hb : affine4 B) : affine4 (A * B) := by
  obtain ⟨a0, a1, a2, a3⟩ := ha
  obtain ⟨b0, b1, b2, b3⟩ := hb
  refine ⟨?_, ?_, ?_, ?_⟩ <;>
    simp [Matrix.mul_apply, Fin.sum_univ_four, a0, a1, a2, a3, b0, b1, b2, b3]

/-- The inverse of an affine transform is affine. -/
theorem affine4_invert (M : Mat4) (h : M.det ≠ 0) (ha : affine4 M) :
    affine4 (mat4invert M) := by
  obtain ⟨a0, a1, a2, a3⟩ := ha
  have key : ∀ j, (mat4invert M) 3 j = (1 : Mat4) 3 j := by
    intro j
    have h1 := congrFun (congrFun (mul_mat4invert M h) 3) j
    rw [Matrix.mul_apply, Fin.sum_univ_four] at h1
    rw [a0, a1, a2, a3] at h1
    simpa using h1
  refine ⟨?_, ?_, ?_, ?_⟩
  · have := key 0
    rwa [Matrix.one_apply_ne (by decide)] at this
  · have := key 1
    rwa [Matrix.one_apply_ne (by decide)] at this
  · have := key 2
    rwa [Matrix.one_apply_ne (by decide)] at this
  · have := key 3
    rwa [Matrix.one_apply_eq] at this

/-- Taking the upper-left block commutes with multiplication when the
right factor's bottom row starts with three zeros. -/
theorem upper3_mul (A B : Mat4) (hb : B 3 0 = 0 ∧ B 3 1 = 0 ∧ B 3 2 = 0) :
    upper3 (A * B) = upper3 A * upper3 B := by
  ext i j
  fin_cases i <;> fin_cases j <;>
    simp [upper3, Matrix.mul_apply, Fin.sum_univ_four, Fin.sum_univ_three,
      hb.1, hb.2.1, hb.2.2, Fin.castSucc, Fin.castAdd, Fin.castLE]

/-- The upper-left block of the identity is the identity. -/
theorem upper3_one : upper3 (1 : Mat4) = 1 := by
  ext i j
  fin_cases i <;> fin_cases j <;> simp [upper3, Matrix.one_apply, Fin.castSucc] <;> decide

/-- On a nonsingular affine transform, the upper-left block of the
inverse is the two-sided inverse of the upper-left block. -/
theorem upper3_invert (M : Mat4) (h : M.det ≠ 0) (ha : affine4 M) :
    upper3 (mat4invert M) * upper3 M = 1 ∧ upper3 M * upper3 (mat4invert M) = 1 := by
  have hai := affine4_invert M h ha
  constructor
  · rw [← upper3_mul _ _ ⟨ha.1, ha.2.1, ha.2.2.1⟩, mat4invert_mul M h, upper3_one]
  · rw [← upper3_mul _ _ ⟨hai.1, hai.2.1, hai.2.2.1⟩, mul_mat4invert M h, upper3_one]

/-- Inverting the identity gives the identity. -/
theorem mat4invert_one : mat4invert (1 : Mat4) = 1 := by
  unfold mat4invert
  rw [if_neg (by simp : ¬ (1 : Mat4).det = 0)]
  simp [Matrix.adjugate_one]

/-- The identity is affine. -/
theorem affine4_one : affine4 (1 : Mat4) := by
  refine ⟨?_, ?_, ?_, ?_⟩ <;> simp [Matrix.one_apply]

/-- The normal matrix gl-matrix `mat3.normalFromMat4` computes: the
transposed upper-left three-by-three block of the four-by-four inverse. -/
def normalFromMat4 (M : Mat4) : Matrix (Fin 3) (Fin 3) ℚ :=
  (upper3 (mat4invert M)).transpose

/-- Reading a matrix from its column-major 16-float layout
(`Float32Array` index `k` holds row `k % 4` of column `k / 4`). -/
def flat16 (M : Mat4) (k : Nat) : ℚ :=
  M ⟨k % 4, Nat.mod_lt _ (by omega)⟩ ⟨k / 4 % 4, Nat.mod_lt _ (by omega)⟩

/-- Reading a three-by-three matrix from its column-major 9-float
layout. -/
def flat9 (N : Matrix (Fin 3) (Fin 3) ℚ) (k : Nat) : ℚ :=
  N ⟨k % 3, Nat.mod_lt _ (by omega)⟩ ⟨k / 3 % 3, Nat.mod_lt _ (by omega)⟩

/-- Reading a `vec3` component. -/
def positionAt (p : Fin 3 → ℚ) (k : Nat) : ℚ :=
  p ⟨k % 3, Nat.mod_lt _ (by omega)⟩

/-- The camera fields `_updatePipeline` reads; the `Camera` component
keeps `viewMatrix` equal to the inverted world matrix. -/
structure RCamera where
  matrix : Mat4
  viewMatrix : Mat4
  projectionMatrix : Mat4
  position : Fin 3 → ℚ

/-- The per-frame rewrite of the 80-float base uniform buffer (source
lines 216–228), returning the new buffer contents and the binding's
`needsUpdate` flag.  The subarray writes are disjoint: model 0–15, view
16–31, projection 32–47, model-view (`view * model`, multiplied in place
after copying the view) 48–63, normal matrix 64–72, camera position
76–78; floats 73–75 and 79 are padding and keep their old values. -/
def updateBaseUniform (bo : Nat → ℚ) (meshMatrix : Mat4) (cam : RCamera) :
    (Nat → ℚ) × Bool :=
  let model := meshMatrix
  let view := cam.viewMatrix
  let proj := cam.projectionMatrix
  let mv := view * model
  let nrm := normalFromMat4 mv
  (fun i =>
    if i < 16 then flat16 model i
    else if i < 32 then flat16 view (i - 16)
    else if i < 48 then flat16 proj (i - 32)
    else if i < 64 then flat16 mv (i - 48)
    else if i < 73 then flat9 nrm (i - 64)
    else if 76 ≤ i ∧ i < 79 then positionAt cam.position (i - 76)
    else bo i, true)

/-- The claim's reading of the base uniform block after one rewrite:
model at 0–15; at 16–31 the view matrix, which is the (two-sided) inverse
of the camera's world transform; projection at 32–47; model-view
`view * model` at 48–63; at 64–72 the normal matrix, whose transpose is
the (two-sided) inverse of the upper three-by-three block of model-view —
i.e. the normal matrix is its inverse-transpose; camera world position at
76–78; padding untouched; and the binding's dirty flag set. -/
def BaseUniformSpec (bo bo' : Nat → ℚ) (dirty : Bool) (meshMatrix : Mat4)
    (cam : RCamera) : Prop :=
  (∀ i, i < 16 → bo' i = flat16 meshMatrix i)
  ∧ (∀ i, 16 ≤ i → i < 32 → bo' i = flat16 (mat4invert cam.matrix) (i - 16))
  ∧ (mat4invert cam.matrix * cam.matrix = 1 ∧ cam.matrix * mat4invert cam.matrix = 1)
  ∧ (∀ i, 32 ≤ i → i < 48 → bo' i = flat16 cam.projectionMatrix (i - 32))
  ∧ (∀ i, 48 ≤ i → i < 64 → bo' i = flat16 (cam.viewMatrix * meshMatrix) (i - 48))
  ∧ (∀ i, 64 ≤ i → i < 73 →
      bo' i = flat9 (normalFromMat4 (cam.viewMatrix * meshMatrix)) (i - 64))
  ∧ ((normalFromMat4 (cam.viewMatrix * meshMatrix)).transpose
        * upper3 (cam.viewMatrix * meshMatrix) = 1
     ∧ upper3 (cam.viewMatrix * meshMatrix)
        * (normalFromMat4 (cam.viewMatrix * meshMatrix)).transpose = 1)
  ∧ (∀ i, 76 ≤ i → i < 79 → bo' i = positionAt cam.position (i - 76))
  ∧ (∀ i, (73 ≤ i ∧ i < 76) ∨ 79 ≤ i → bo' i = bo i)
  ∧ dirty = true

/-- C7: for every mesh and camera with nonsingular affine world
transforms, where the Camera component has set
`viewMatrix = invert(world matrix)`, one base-uniform rewrite lays the
block out as claimed: model 0–15, view (the inverse of the camera world
transform) 16–31, projection 32–47, model-view = view x model 48–63, the
normal matrix (inverse-transpose of the upper three-by-three of
model-view) 64–72, camera position 76–78, and the dirty flag true
afterwards. -/
theorem c7_base_uniform_block (bo : Nat → ℚ) (meshMatrix : Mat4) (cam : RCamera)
    (hview : cam.viewMatrix = mat4invert cam.matrix)
    (hdetc : cam.matrix.det ≠ 0)
    (hdetm : meshMatrix.det ≠ 0)
    (hac : affine4 cam.matrix)
    (ham : affine4 meshMatrix) :
    BaseUniformSpec bo (updateBaseUniform bo meshMatrix cam).1
      (updateBaseUniform bo meshMatrix cam).2 meshMatrix cam := by
  have hdetv : cam.viewMatrix.det ≠ 0 := by
    rw [hview]; exact det_mat4invert_ne_zero _ hdetc
  have hav : affine4 cam.viewMatrix := by
    rw [hview]; exact affine4_invert _ hdetc hac
  have hdetmv : (cam.viewMatrix * meshMatrix).det ≠ 0 := by
    rw [Matrix.det_mul]
    exact mul_ne_zero hdetv hdetm
  have hamv : affine4 (cam.viewMatrix * meshMatrix) := affine4_mul _ _ hav ham
  have hup := upper3_invert _ hdetmv hamv
  refine ⟨?_, ?_, ⟨mat4invert_mul _ hdetc, mul_mat4invert _ hdetc⟩, ?_, ?_, ?_, ?_, ?_, ?_, rfl⟩
  · intro i h1
    simp only [updateBaseUniform]
    rw [if_pos h1]
  · intro i h1 h2
    simp only [updateBaseUniform]
    rw [if_neg (by omega), if_pos h2, hview]
  · intro i h1 h2
    simp only [updateBaseUniform]
    rw [if_neg (by omega), if_neg (by omega), if_pos h2]
  · intro i h1 h2
    simp only [updateBaseUniform]
    rw [if_neg (by omega), if_neg (by omega), if_neg (by omega), if_pos h2]
  · intro i h1 h2
    simp only [updateBaseUniform]
    rw [if_neg (by omega), if_neg (by omega), if_neg (by omega), if_neg (by omega), if_pos h2]
  · constructor
    · simpa [normalFromMat4, Matrix.transpose_transpose] using hup.1
    · simpa [normalFromMat4, Matrix.transpose_transpose] using hup.2
  · intro i h1 h2
    simp only [updateBaseUniform]
    rw [if_neg (by omega), if_neg (by omega), if_neg (by omega), if_neg (by omega),
      if_neg (by omega), if_pos ⟨h1, h2⟩]
  · intro i h1
    simp only [updateBaseUniform]
    rw [if_neg (by omega), if_neg (by omega), if_neg (by omega), if_neg (by omega),
      if_neg (by omega), if_neg (by omega)]

/-- Witness for C7 at the identity camera and mesh (both affine and
nonsingular, with the view matrix equal to the inverted — identity —
world matrix) over a zeroed buffer. -/
theorem c7_base_uniform_block_witness :
    BaseUniformSpec (fun _ => 0)
      (updateBaseUniform (fun _ => 0) 1 ⟨1, 1, 1, fun _ => 0⟩).1
      (updateBaseUniform (fun _ => 0) 1 ⟨1, 1, 1, fun _ => 0⟩).2 1 ⟨1, 1, 1, fun _ => 0⟩ :=
  c7_base_uniform_block (fun _ => 0) 1 ⟨1, 1, 1, fun _ => 0⟩
    mat4invert_one.symm (by simp) (by simp) affine4_one affine4_one

end SolidWebgpu
